import Mathlib

/-!
Verification development for the file-transfer library (`core.py`).

The repository moves files between two storage backends (an Azure Data Lake
hierarchical store and a Windows network folder) through a uniform client
interface, staging each transfer through a temporary local file.

The embedding models filesystems as finite association lists from paths
(lists of `/`-separated segments) to entries; files carry a readability flag
modelling operating-system permissions (the OS filesystem is an external
capability of the program).  Python exceptions are mapped to the error
taxonomy of the design: `FileNotFoundError` on a missing source path becomes
`notFound`; `OSError` during local reads/writes (including
`os.makedirs("")` on the empty dirname) becomes `localIOError`;
`AzureError` becomes `backendUnavailable`; the `ValueError` raised by the
two-way unpacking of `path.split('/', 1)` when the path has no slash becomes
`invalidPath`.
-/

deriving instance DecidableEq for Except

namespace FileTransferLib

/-- Error kinds, following the design's error taxonomy. -/
inductive Err
  | notFound
  | localIOError
  | backendUnavailable
  | invalidPath
deriving DecidableEq

/-- Bytes of a file's content. -/
abbrev Bytes := List Nat

/-- A filesystem entry: a leaf file (with content and a readability flag
modelling OS permissions) or a directory. -/
inductive Entry
  | file (content : Bytes) (readable : Bool)
  | dir
deriving DecidableEq

/-- A filesystem tree, as a finite association list from segment paths to
entries.  The root `[]` always exists and is a directory. -/
structure FS where
  entries : List (List String × Entry)
deriving DecidableEq

/-- Split a character list at every `/` (the semantics of Python's
`split('/')`): `splitSlashAux s.data [] = (String.mk s.data).split('/')`. -/
def splitSlashAux : List Char → List Char → List String
  | [], acc => [String.mk acc.reverse]
  | c :: rest, acc =>
    if c = '/' then String.mk acc.reverse :: splitSlashAux rest []
    else splitSlashAux rest (c :: acc)

/-- `s.split('/')`: the pieces of `s` between the `/` separators, empty
pieces included (`"".split('/') = [""]`, `"a/".split('/') = ["a",""]`). -/
def splitSlash (s : String) : List String :=
  splitSlashAux s.data []

/-- Split a `/`-separated path string into its nonempty segments, as
`pathlib` does when combining and normalising path components. -/
def segs (s : String) : List String :=
  (splitSlash s).filter (fun t => t ≠ "")

/-- Join segments back into a `/`-separated path string
(`str(p.relative_to(base))` in the source). -/
def joinSegs (p : List String) : String :=
  String.intercalate "/" p

/-- `os.path.dirname`: everything before the last `/`; the empty string when
the path contains no `/`. -/
def dirname (s : String) : String :=
  String.intercalate "/" ((splitSlash s).dropLast)

/-- `os.path.basename`: everything after the last `/`. -/
def basename (s : String) : String :=
  (splitSlash s).getLastD s

/-- `s.rstrip('/')` from `transfer_files`. -/
def rstripSlash (s : String) : String :=
  String.mk ((s.data.reverse.dropWhile (fun c => c = '/')).reverse)

/-- `path.split('/', 1)` with starred unpacking (`list_files` of the Azure
client): always succeeds, the remainder defaulting to the empty string. -/
def splitContainer (s : String) : String × String :=
  match splitSlash s with
  | [] => (s, "")
  | [a] => (a, "")
  | a :: rest => (a, String.intercalate "/" rest)

/-- `path.split('/', 1)` with strict two-way unpacking (`download_file` and
`upload_file` of the Azure client): `none` models the `ValueError` raised
when the path contains no `/`. -/
def splitContainerItem (s : String) : Option (String × String) :=
  match splitSlash s with
  | a :: b :: rest => some (a, String.intercalate "/" (b :: rest))
  | _ => none

/-- Look a path up in the filesystem (first matching entry). -/
def FS.lookup (fs : FS) (p : List String) : Option Entry :=
  (fs.entries.find? (fun x => x.1 == p)).map (fun x => x.2)

/-- `Path.exists()`: the root always exists; otherwise an entry must be
present. -/
def FS.existsP (fs : FS) (p : List String) : Bool :=
  p.isEmpty || (fs.lookup p).isSome

/-- Whether `p` is a directory of the filesystem (the root always is). -/
def FS.isDirP (fs : FS) (p : List String) : Bool :=
  p.isEmpty || decide (fs.lookup p = some Entry.dir)

/-- Insert or replace the entry at `p`. -/
def FS.insertEntry (fs : FS) (p : List String) (e : Entry) : FS :=
  ⟨(p, e) :: fs.entries.filter (fun x => !(x.1 == p))⟩

/-- Read a file's bytes (`open(path, 'rb')` / `shutil.copy2` source side):
fails on a missing path, a directory, or an unreadable file. -/
def FS.readFile (fs : FS) (p : List String) : Option Bytes :=
  match fs.lookup p with
  | some (Entry.file c true) => some c
  | _ => none

/-- Write a file's bytes (`open(path, 'wb')` / `shutil.copy2` destination
side): the parent must be an existing directory and the target must not be a
directory; overwrites an existing file unconditionally. -/
def FS.writeFile (fs : FS) (p : List String) (c : Bytes) : Except Err FS :=
  if fs.isDirP p.dropLast then
    match fs.lookup p with
    | some Entry.dir => Except.error Err.localIOError
    | _ => Except.ok (fs.insertEntry p (Entry.file c true))
  else Except.error Err.localIOError

/-- Create each missing prefix of `pref ++ rest` as a directory, starting
from the already-existing directory `pref`; fails if some prefix exists as a
file (the `os.makedirs(..., exist_ok=True)` loop). -/
def FS.mkdirChain (fs : FS) (pref : List String) (rest : List String) : Except Err FS :=
  match rest with
  | [] => Except.ok fs
  | s :: rest' =>
    match fs.lookup (pref ++ [s]) with
    | some (Entry.file _ _) => Except.error Err.localIOError
    | some Entry.dir => fs.mkdirChain (pref ++ [s]) rest'
    | none => (fs.insertEntry (pref ++ [s]) Entry.dir).mkdirChain (pref ++ [s]) rest'

/-- `os.makedirs(p, exist_ok=True)` on a segment path. -/
def FS.makedirs (fs : FS) (p : List String) : Except Err FS :=
  fs.mkdirChain [] p

/-- `os.makedirs(s, exist_ok=True)` on a path string: `os.makedirs('')`
raises even with `exist_ok=True`, which the taxonomy classes as a local IO
failure (missing parent creation failure). -/
def FS.makedirsStr (fs : FS) (s : String) : Except Err FS :=
  if s = "" then Except.error Err.localIOError else fs.makedirs (segs s)

/-- Remove the whole subtree rooted at `p`, `p` itself included
(the cleanup performed when a `tempfile.TemporaryDirectory` scope exits). -/
def FS.removeTree (fs : FS) (p : List String) : FS :=
  ⟨fs.entries.filter (fun x => !(p.isPrefixOf x.1))⟩

/-- All leaf-file paths strictly below `p` (`full_path.rglob('*')` filtered
by `is_file()`), in entry order. -/
def FS.filesUnder (fs : FS) (p : List String) : List (List String) :=
  fs.entries.filterMap (fun x =>
    match x.2 with
    | Entry.file _ _ => if p.isPrefixOf x.1 && !(x.1 == p) then some x.1 else none
    | Entry.dir => none)

/-- The hierarchical store behind the Azure client: a finite map from
container (filesystem) names to their item trees. -/
structure AzStore where
  filesystems : List (String × FS)
deriving DecidableEq

/-- Resolve a container name to its item tree. -/
def AzStore.lookupFS (st : AzStore) (name : String) : Option FS :=
  (st.filesystems.find? (fun x => x.1 == name)).map (fun x => x.2)

/-- Replace the item tree of a container. -/
def AzStore.setFS (st : AzStore) (name : String) (fs : FS) : AzStore :=
  ⟨(name, fs) :: st.filesystems.filter (fun x => !(x.1 == name))⟩

/-- `AzureDataLakeClient.list_files`: splits the leading container segment
with starred unpacking, then enumerates the container's items under the
remaining path recursively (`get_paths`, whose `name`s are container-root
relative), keeping only non-directory entries.  A missing container or
directory is a service-side error (`AzureError`, re-raised). -/
def AzureDataLakeClient.list_files (st : AzStore) (path : String) : Except Err (List String) :=
  match st.lookupFS (splitContainer path).1 with
  | none => Except.error Err.backendUnavailable
  | some fsC =>
    if (segs (splitContainer path).2).isEmpty
        || decide (fsC.lookup (segs (splitContainer path).2) = some Entry.dir) then
      Except.ok ((fsC.filesUnder (segs (splitContainer path).2)).map joinSegs)
    else Except.error Err.backendUnavailable

/-- `AzureDataLakeClient.download_file`: strict container/item split
(`ValueError` when the path has no `/`), remote read
(`file_client.download_file()` happens before any local work), then
`os.makedirs(os.path.dirname(local_path), exist_ok=True)` and the local
write. -/
def AzureDataLakeClient.download_file (st : AzStore) (source_path local_path : String)
    (lfs : FS) : Except Err Unit × FS :=
  match splitContainerItem source_path with
  | none => (Except.error Err.invalidPath, lfs)
  | some (fsName, file_path) =>
    match (st.lookupFS fsName).bind (fun fsC => fsC.readFile (segs file_path)) with
    | none => (Except.error Err.backendUnavailable, lfs)
    | some c =>
      match lfs.makedirsStr (dirname local_path) with
      | Except.error e => (Except.error e, lfs)
      | Except.ok lfs1 =>
        match lfs1.writeFile (segs local_path) c with
        | Except.error e => (Except.error e, lfs1)
        | Except.ok lfs2 => (Except.ok (), lfs2)

/-- `AzureDataLakeClient.upload_file`: strict container/item split
(`ValueError` when the path has no `/`), full local read
(`open(local_path, 'rb')`), then `upload_data(..., overwrite=True)`, which
creates missing parent directories in the hierarchical namespace and
overwrites the item; service-side failures are `AzureError`, re-raised. -/
def AzureDataLakeClient.upload_file (lfs : FS) (st : AzStore) (local_path dest_path : String) :
    Except Err Unit × AzStore :=
  match splitContainerItem dest_path with
  | none => (Except.error Err.invalidPath, st)
  | some (fsName, file_path) =>
    match lfs.readFile (segs local_path) with
    | none => (Except.error Err.localIOError, st)
    | some c =>
      match st.lookupFS fsName with
      | none => (Except.error Err.backendUnavailable, st)
      | some fsC =>
        match fsC.makedirs (segs file_path).dropLast with
        | Except.error _ => (Except.error Err.backendUnavailable, st)
        | Except.ok fsC1 =>
          match fsC1.writeFile (segs file_path) c with
          | Except.error _ => (Except.error Err.backendUnavailable, st)
          | Except.ok fsC2 => (Except.ok (), st.setFS fsName fsC2)

/-- `WindowsNetworkFolderClient.list_files`: resolves `base_path / path`
(the state is the tree under `base_path`), raises `FileNotFoundError` when
it does not exist, otherwise returns every leaf file below it by its path
relative to the base root. -/
def WindowsNetworkFolderClient.list_files (remote : FS) (path : String) :
    Except Err (List String) :=
  if remote.existsP (segs path) then
    Except.ok ((remote.filesUnder (segs path)).map joinSegs)
  else Except.error Err.notFound

/-- `WindowsNetworkFolderClient.download_file`: existence check on
`base_path / source_path` first (`FileNotFoundError` when absent), then
`os.makedirs(os.path.dirname(local_path), exist_ok=True)`, then
`shutil.copy2` (read the remote file, write it locally). -/
def WindowsNetworkFolderClient.download_file (remote : FS) (source_path local_path : String)
    (lfs : FS) : Except Err Unit × FS :=
  if remote.existsP (segs source_path) then
    match lfs.makedirsStr (dirname local_path) with
    | Except.error e => (Except.error e, lfs)
    | Except.ok lfs1 =>
      match remote.readFile (segs source_path) with
      | none => (Except.error Err.localIOError, lfs1)
      | some c =>
        match lfs1.writeFile (segs local_path) c with
        | Except.error e => (Except.error e, lfs1)
        | Except.ok lfs2 => (Except.ok (), lfs2)
  else (Except.error Err.notFound, lfs)

/-- `WindowsNetworkFolderClient.upload_file`:
`os.makedirs(full_dest_path.parent, exist_ok=True)` (a `Path` parent, so an
empty remainder means the existing base root), then `shutil.copy2` from the
local file to `base_path / dest_path`, overwriting unconditionally. -/
def WindowsNetworkFolderClient.upload_file (lfs : FS) (remote : FS)
    (local_path dest_path : String) : Except Err Unit × FS :=
  match remote.makedirs (segs dest_path).dropLast with
  | Except.error e => (Except.error e, remote)
  | Except.ok r1 =>
    match lfs.readFile (segs local_path) with
    | none => (Except.error Err.localIOError, r1)
    | some c =>
      match r1.writeFile (segs dest_path) c with
      | Except.error e => (Except.error e, r1)
      | Except.ok r2 => (Except.ok (), r2)

/-- The `StorageClient` contract: listing reads the backend state only;
downloading mutates only the local filesystem; uploading mutates only the
backend state.  On an error the possibly part-mutated state is returned,
as a raised Python exception leaves state changes already made in place. -/
structure Backend (σ : Type) where
  listF : σ → String → Except Err (List String)
  download : σ → String → String → FS → Except Err Unit × FS
  upload : FS → σ → String → String → Except Err Unit × σ

/-- The Windows network folder backend over its base-root tree. -/
def wnfBackend : Backend FS :=
  { listF := WindowsNetworkFolderClient.list_files
    download := WindowsNetworkFolderClient.download_file
    upload := fun lfs remote lp dp => WindowsNetworkFolderClient.upload_file lfs remote lp dp }

/-- The Azure Data Lake backend over its container store. -/
def adlBackend : Backend AzStore :=
  { listF := AzureDataLakeClient.list_files
    download := AzureDataLakeClient.download_file
    upload := fun lfs st lp dp => AzureDataLakeClient.upload_file lfs st lp dp }

/-- The combined state a `FileTransferManager` call acts on: the source
backend, the destination backend, and the local filesystem used for
staging. -/
structure World (σs σd : Type) where
  src : σs
  dst : σd
  lfs : FS
deriving DecidableEq

/-- Name of the fresh temporary staging directory handed out by
`tempfile.TemporaryDirectory()` for the `n`-th transfer. -/
def tmpDirName (n : Nat) : String :=
  "tmp" ++ toString n

/-- `FileTransferManager.transfer_file`: create a scoped temporary
directory, download `source_path` into `tmpdir/basename(source_path)`,
upload that staging file to `dest_path`, and remove the temporary directory
tree on every exit path (the `with` block's guaranteed cleanup). -/
def transfer_file {σs σd : Type} (S : Backend σs) (D : Backend σd)
    (source_path dest_path : String) (n : Nat) (w : World σs σd) :
    Except Err Unit × World σs σd :=
  match S.download w.src source_path (tmpDirName n ++ "/" ++ basename source_path)
      (w.lfs.insertEntry [tmpDirName n] Entry.dir) with
  | (Except.error e, lfs2) =>
    (Except.error e, ⟨w.src, w.dst, lfs2.removeTree [tmpDirName n]⟩)
  | (Except.ok _, lfs2) =>
    match D.upload lfs2 w.dst (tmpDirName n ++ "/" ++ basename source_path) dest_path with
    | (Except.error e, dst2) =>
      (Except.error e, ⟨w.src, dst2, lfs2.removeTree [tmpDirName n]⟩)
    | (Except.ok _, dst2) => (Except.ok (), ⟨w.src, dst2, lfs2.removeTree [tmpDirName n]⟩)

/-- Source/destination path built by `transfer_files` for a listed file:
`f"{dir.rstrip('/')}/{file_rel_path}"`. -/
def joinedPath (dir file_rel_path : String) : String :=
  rstripSlash dir ++ "/" ++ file_rel_path

/-- The per-file loop of `transfer_files`: strictly sequential, in listing
order, aborting on the first error. -/
def transferLoop {σs σd : Type} (S : Backend σs) (D : Backend σd)
    (source_dir dest_dir : String) (files : List String) (n : Nat) (w : World σs σd) :
    Except Err Unit × World σs σd :=
  match files with
  | [] => (Except.ok (), w)
  | f :: rest =>
    match transfer_file S D (joinedPath source_dir f) (joinedPath dest_dir f) n w with
    | (Except.error e, w1) => (Except.error e, w1)
    | (Except.ok _, w1) => transferLoop S D source_dir dest_dir rest (n + 1) w1

/-- `FileTransferManager.transfer_files`: list the files under `source_dir`
on the source backend, then transfer each one in order. -/
def transfer_files {σs σd : Type} (S : Backend σs) (D : Backend σd)
    (source_dir dest_dir : String) (n : Nat) (w : World σs σd) :
    Except Err Unit × World σs σd :=
  match S.listF w.src source_dir with
  | Except.error e => (Except.error e, w)
  | Except.ok files => transferLoop S D source_dir dest_dir files n w

/-! Helper lemmas about the filesystem model. -/

theorem FS.lookup_insertEntry_self (fs : FS) (p : List String) (e : Entry) :
    (fs.insertEntry p e).lookup p = some e := by
  unfold FS.insertEntry FS.lookup
  rw [List.find?_cons_of_pos _ (by simp)]
  rfl

theorem FS.lookup_insertEntry_ne (fs : FS) {p q : List String} (e : Entry) (h : q ≠ p) :
    (fs.insertEntry p e).lookup q = fs.lookup q := by
  unfold FS.insertEntry FS.lookup
  rw [List.find?_cons_of_neg _ (by simpa using fun hq => h hq.symm)]
  congr 1
  induction fs.entries with
  | nil => rfl
  | cons a t ih =>
    by_cases hap : a.1 = p
    · rw [List.filter_cons_of_neg (by simpa using hap),
        List.find?_cons_of_neg _ (by simpa using hap ▸ fun hq => h hq.symm), ih]
    · rw [List.filter_cons_of_pos (by simpa using hap)]
      by_cases haq : a.1 = q
      · rw [List.find?_cons_of_pos _ (by simpa using haq),
          List.find?_cons_of_pos _ (by simpa using haq)]
      · rw [List.find?_cons_of_neg _ (by simpa using haq),
          List.find?_cons_of_neg _ (by simpa using haq), ih]

theorem FS.lookup_removeTree (fs : FS) {p q : List String} (h : p <+: q) :
    (fs.removeTree p).lookup q = none := by
  unfold FS.removeTree FS.lookup
  have : (fs.entries.filter (fun x => !(p.isPrefixOf x.1))).find? (fun x => x.1 == q) = none := by
    rw [List.find?_eq_none]
    intro x hx
    rw [List.mem_filter] at hx
    intro hbeq
    have hxq : x.1 = q := by simpa using hbeq
    rw [hxq] at hx
    have := hx.2
    rw [Bool.not_eq_true', ← Bool.not_eq_true, List.isPrefixOf_iff_prefix] at this
    exact this h
  rw [this]
  rfl

theorem FS.readFile_insertEntry_self (fs : FS) (p : List String) (c : Bytes) :
    (fs.insertEntry p (Entry.file c true)).readFile p = some c := by
  unfold FS.readFile
  rw [FS.lookup_insertEntry_self]

theorem FS.writeFile_eq (fs : FS) (p : List String) (c : Bytes)
    (h1 : fs.isDirP p.dropLast = true) (h2 : fs.lookup p ≠ some Entry.dir) :
    fs.writeFile p c = Except.ok (fs.insertEntry p (Entry.file c true)) := by
  unfold FS.writeFile
  rw [if_pos h1]
  split
  · next heq => exact absurd heq h2
  · rfl

theorem FS.isDirP_of_lookup_dir (fs : FS) (q : List String)
    (h : fs.lookup q = some Entry.dir) : fs.isDirP q = true := by
  unfold FS.isDirP
  rw [h]
  simp

theorem FS.mkdirChain_isDir (rest : List String) :
    ∀ (fs fs' : FS) (pref : List String), fs.mkdirChain pref rest = Except.ok fs' →
      fs.isDirP pref = true → fs'.isDirP (pref ++ rest) = true := by
  induction rest with
  | nil =>
    intro fs fs' pref h hd
    unfold FS.mkdirChain at h
    cases h
    simpa using hd
  | cons s rest' ih =>
    intro fs fs' pref h hd
    unfold FS.mkdirChain at h
    have hassoc : pref ++ s :: rest' = (pref ++ [s]) ++ rest' := by simp
    rw [hassoc]
    split at h
    · exact absurd h (by simp)
    · next heq =>
      exact ih _ _ _ h (FS.isDirP_of_lookup_dir _ _ heq)
    · exact ih _ _ _ h
        (FS.isDirP_of_lookup_dir _ _ (FS.lookup_insertEntry_self fs (pref ++ [s]) Entry.dir))

theorem FS.makedirs_isDir {fs fs' : FS} {p : List String}
    (h : fs.makedirs p = Except.ok fs') : fs'.isDirP p = true := by
  have := FS.mkdirChain_isDir p fs fs' [] h (by simp [FS.isDirP])
  simpa using this

theorem FS.mkdirChain_lookup_of_longer (rest : List String) :
    ∀ (fs fs' : FS) (pref q : List String), fs.mkdirChain pref rest = Except.ok fs' →
      pref.length + rest.length < q.length → fs'.lookup q = fs.lookup q := by
  induction rest with
  | nil =>
    intro fs fs' pref q h _
    unfold FS.mkdirChain at h
    cases h
    rfl
  | cons s rest' ih =>
    intro fs fs' pref q h hlen
    unfold FS.mkdirChain at h
    split at h
    · exact absurd h (by simp)
    · exact ih _ _ _ _ h (by simp at hlen ⊢; omega)
    · rw [ih _ _ _ _ h (by simp at hlen ⊢; omega), FS.lookup_insertEntry_ne]
      intro hq
      have : q.length = pref.length + 1 := by rw [hq]; simp
      simp at hlen
      omega

theorem FS.makedirs_lookup_of_longer {fs fs' : FS} {p q : List String}
    (h : fs.makedirs p = Except.ok fs') (hlen : p.length < q.length) :
    fs'.lookup q = fs.lookup q :=
  FS.mkdirChain_lookup_of_longer p fs fs' [] q h (by simpa using hlen)

theorem FS.mem_filesUnder (fs : FS) (p q : List String) :
    q ∈ fs.filesUnder p ↔
      (∃ c r, (q, Entry.file c r) ∈ fs.entries) ∧ p <+: q ∧ q ≠ p := by
  unfold FS.filesUnder
  rw [List.mem_filterMap]
  constructor
  · rintro ⟨⟨xp, xe⟩, hx, hfx⟩
    cases xe with
    | dir => simp at hfx
    | file c r =>
      simp only at hfx
      split at hfx
      · next hcond =>
        cases hfx
        rw [Bool.and_eq_true, Bool.not_eq_true', beq_eq_false_iff_ne,
          List.isPrefixOf_iff_prefix] at hcond
        exact ⟨⟨c, r, hx⟩, hcond.1, hcond.2⟩
      · exact absurd hfx (by simp)
  · rintro ⟨⟨c, r, hmem⟩, hpre, hne⟩
    refine ⟨(q, Entry.file c r), hmem, ?_⟩
    simp only
    rw [if_pos]
    rw [Bool.and_eq_true, Bool.not_eq_true', beq_eq_false_iff_ne, List.isPrefixOf_iff_prefix]
    exact ⟨hpre, hne⟩

theorem AzStore.lookupFS_setFS_self (st : AzStore) (name : String) (fs : FS) :
    (st.setFS name fs).lookupFS name = some fs := by
  unfold AzStore.setFS AzStore.lookupFS
  rw [List.find?_cons_of_pos _ (by simp)]
  rfl

/-! Claim theorems. -/

/-- C2: for the Network-Folder backend, `list_files path` fails with
`NotFound` when `root/path` does not exist; otherwise it returns exactly
the leaf files (no directories) reachable recursively under `root/path`,
each expressed relative to the backend root (each returned path still
carries the queried subdirectory as a prefix, so it is not relative to
it). -/
theorem c2_list_files_network (remote : FS) (path : String) :
    (remote.existsP (segs path) = false →
      WindowsNetworkFolderClient.list_files remote path = Except.error Err.notFound)
  ∧ (remote.existsP (segs path) = true →
      ∃ l, WindowsNetworkFolderClient.list_files remote path = Except.ok l ∧
        ∀ s, s ∈ l ↔ ∃ q c r, (q, Entry.file c r) ∈ remote.entries ∧
          segs path <+: q ∧ q ≠ segs path ∧ s = joinSegs q) := by
  constructor
  · intro h
    unfold WindowsNetworkFolderClient.list_files
    rw [if_neg (by rw [h]; simp)]
  · intro h
    unfold WindowsNetworkFolderClient.list_files
    rw [if_pos h]
    refine ⟨_, rfl, fun s => ?_⟩
    rw [List.mem_map]
    constructor
    · rintro ⟨q, hq, rfl⟩
      rw [FS.mem_filesUnder] at hq
      obtain ⟨⟨c, r, hm⟩, hpre, hne⟩ := hq
      exact ⟨q, c, r, hm, hpre, hne, rfl⟩
    · rintro ⟨q, c, r, hm, hpre, hne, rfl⟩
      exact ⟨q, (FS.mem_filesUnder _ _ _).2 ⟨⟨c, r, hm⟩, hpre, hne⟩, rfl⟩

/-- Sample base-root tree used by witnesses: `dir/x.txt` below the root. -/
def wfsSample : FS :=
  ⟨[(["dir"], Entry.dir), (["dir", "x.txt"], Entry.file [7] true)]⟩

/-- Witness for C2: on a concrete tree, a missing path yields `NotFound`
and an existing one yields a listing containing the root-relative
`dir/x.txt`. -/
theorem c2_list_files_network_witness :
    WindowsNetworkFolderClient.list_files wfsSample "nope" = Except.error Err.notFound ∧
    ∃ l, WindowsNetworkFolderClient.list_files wfsSample "dir" = Except.ok l ∧
      "dir/x.txt" ∈ l := by
  refine ⟨(c2_list_files_network wfsSample "nope").1 (by decide), ?_⟩
  obtain ⟨l, hl, hiff⟩ := (c2_list_files_network wfsSample "dir").2 (by decide)
  exact ⟨l, hl, (hiff _).2 ⟨["dir", "x.txt"], [7], true, by decide, by decide, by decide, rfl⟩⟩

/-- C5: for the Network-Folder backend, `list_files` and `download_file`
on a nonexistent source path raise `NotFound` with no partial side
effects: the local filesystem is returned exactly as it was (no staging or
local file created, no write attempted), the existence check coming before
any write. -/
theorem c5_missing_path_no_side_effects (remote : FS) (sp local_path : String) (lfs : FS)
    (h : remote.existsP (segs sp) = false) :
    WindowsNetworkFolderClient.list_files remote sp = Except.error Err.notFound ∧
    WindowsNetworkFolderClient.download_file remote sp local_path lfs =
      (Except.error Err.notFound, lfs) := by
  constructor
  · unfold WindowsNetworkFolderClient.list_files
    rw [if_neg (by rw [h]; simp)]
  · unfold WindowsNetworkFolderClient.download_file
    rw [if_neg (by rw [h]; simp)]

/-- Witness for C5: a missing path on a concrete tree, with a concrete
local filesystem left untouched. -/
theorem c5_missing_path_no_side_effects_witness :
    WindowsNetworkFolderClient.list_files wfsSample "gone" = Except.error Err.notFound ∧
    WindowsNetworkFolderClient.download_file wfsSample "gone" "stage/f.txt"
      (FS.mk [(["keep"], Entry.dir)]) =
      (Except.error Err.notFound, FS.mk [(["keep"], Entry.dir)]) :=
  c5_missing_path_no_side_effects wfsSample "gone" "stage/f.txt"
    (FS.mk [(["keep"], Entry.dir)]) (by decide)

/-- C4: for the Hierarchical-Store backend, `download_file` and
`upload_file` on a path containing no `/` (that is, `path.split('/')`
returns the single piece `path`) fail with `InvalidPath` — the
`ValueError` raised by the two-way unpacking of `split('/', 1)` — leaving
both the local filesystem and the store untouched. -/
theorem c4_no_item_segment (st : AzStore) (path local_path : String) (lfs : FS)
    (h : splitSlash path = [path]) :
    AzureDataLakeClient.download_file st path local_path lfs =
      (Except.error Err.invalidPath, lfs) ∧
    AzureDataLakeClient.upload_file lfs st local_path path =
      (Except.error Err.invalidPath, st) := by
  have hsplit : splitContainerItem path = none := by
    unfold splitContainerItem
    rw [h]
  constructor
  · unfold AzureDataLakeClient.download_file
    rw [hsplit]
  · unfold AzureDataLakeClient.upload_file
    rw [hsplit]

/-- Sample hierarchical store used by witnesses: container `cont` holding
`d/f.txt`. -/
def azSample : AzStore :=
  ⟨[("cont", ⟨[(["d"], Entry.dir), (["d", "f.txt"], Entry.file [1, 2] true)]⟩)]⟩

/-- Witness for C4: a bare container name fails both operations with
`InvalidPath` on a concrete store. -/
theorem c4_no_item_segment_witness :
    AzureDataLakeClient.download_file azSample "cont" "a/b" (FS.mk []) =
      (Except.error Err.invalidPath, FS.mk []) ∧
    AzureDataLakeClient.upload_file (FS.mk []) azSample "a/b" "cont" =
      (Except.error Err.invalidPath, azSample) :=
  c4_no_item_segment azSample "cont" "a/b" (FS.mk []) (by decide)

/-- C10: for both backends, `download_file` with a bare local filename (no
`/`, so `os.path.dirname` is the empty string) fails with a local IO
error even though the source exists, because `os.makedirs('')` is
attempted before the write; the local filesystem is left untouched. -/
theorem c10_bare_local_filename (remote : FS) (st : AzStore) (sp spAz local_path : String)
    (lfs : FS) (c : Bytes) (cn ip : String)
    (hlp : splitSlash local_path = [local_path])
    (hex : remote.existsP (segs sp) = true)
    (hsplit : splitContainerItem spAz = some (cn, ip))
    (hread : (st.lookupFS cn).bind (fun fsC => fsC.readFile (segs ip)) = some c) :
    WindowsNetworkFolderClient.download_file remote sp local_path lfs =
      (Except.error Err.localIOError, lfs) ∧
    AzureDataLakeClient.download_file st spAz local_path lfs =
      (Except.error Err.localIOError, lfs) := by
  have hdn : dirname local_path = "" := by
    unfold dirname
    rw [hlp]
    rfl
  have hmk : lfs.makedirsStr (dirname local_path) = Except.error Err.localIOError := by
    rw [hdn]
    rfl
  constructor
  · unfold WindowsNetworkFolderClient.download_file
    rw [if_pos hex, hmk]
  · unfold AzureDataLakeClient.download_file
    simp only [hsplit, hread, hmk]

/-- Witness for C10: downloading an existing file to the bare local
filename `out.txt` fails with a local IO error on both concrete
backends. -/
theorem c10_bare_local_filename_witness :
    WindowsNetworkFolderClient.download_file wfsSample "dir/x.txt" "out.txt" (FS.mk []) =
      (Except.error Err.localIOError, FS.mk []) ∧
    AzureDataLakeClient.download_file azSample "cont/d/f.txt" "out.txt" (FS.mk []) =
      (Except.error Err.localIOError, FS.mk []) :=
  c10_bare_local_filename wfsSample azSample "dir/x.txt" "cont/d/f.txt" "out.txt"
    (FS.mk []) [1, 2] "cont" "d/f.txt" (by decide) (by decide) (by decide) (by decide)

/-- C3: for the Hierarchical-Store backend, `list_files path` splits off
the leading container segment (a bare container name having an empty
remainder and addressing the container root), enumerates items recursively
under the remaining path inside that container, and returns exactly the
non-container (leaf) entries, each by its item path relative to the
container. -/
theorem c3_list_files_hierarchical (st : AzStore) (path cname dpath : String) (fsC : FS)
    (hsplit : splitContainer path = (cname, dpath))
    (hfs : st.lookupFS cname = some fsC)
    (hdir : segs dpath = [] ∨ fsC.lookup (segs dpath) = some Entry.dir) :
    ∃ l, AzureDataLakeClient.list_files st path = Except.ok l ∧
      ∀ s, s ∈ l ↔ ∃ q c r, (q, Entry.file c r) ∈ fsC.entries ∧
        segs dpath <+: q ∧ q ≠ segs dpath ∧ s = joinSegs q := by
  unfold AzureDataLakeClient.list_files
  rw [hsplit]
  simp only [hfs]
  have hcond : ((segs dpath).isEmpty
      || decide (fsC.lookup (segs dpath) = some Entry.dir)) = true := by
    rcases hdir with h | h
    · rw [h]
      rfl
    · rw [h]
      simp
  rw [if_pos hcond]
  refine ⟨_, rfl, fun s => ?_⟩
  rw [List.mem_map]
  constructor
  · rintro ⟨q, hq, rfl⟩
    rw [FS.mem_filesUnder] at hq
    obtain ⟨⟨c, r, hm⟩, hpre, hne⟩ := hq
    exact ⟨q, c, r, hm, hpre, hne, rfl⟩
  · rintro ⟨q, c, r, hm, hpre, hne, rfl⟩
    exact ⟨q, (FS.mem_filesUnder _ _ _).2 ⟨⟨c, r, hm⟩, hpre, hne⟩, rfl⟩

/-- Witness for C3: on the concrete store, both the bare container name
and a `container/directory` path list the leaf item `d/f.txt` by its
container-relative name. -/
theorem c3_list_files_hierarchical_witness :
    (∃ l, AzureDataLakeClient.list_files azSample "cont" = Except.ok l ∧ "d/f.txt" ∈ l) ∧
    (∃ l, AzureDataLakeClient.list_files azSample "cont/d" = Except.ok l ∧ "d/f.txt" ∈ l) := by
  constructor
  · obtain ⟨l, hl, hiff⟩ := c3_list_files_hierarchical azSample "cont" "cont" ""
      (FS.mk [(["d"], Entry.dir), (["d", "f.txt"], Entry.file [1, 2] true)])
      (by decide) (by decide) (Or.inl (by decide))
    exact ⟨l, hl, (hiff _).2 ⟨["d", "f.txt"], [1, 2], true, by decide, by decide, by decide, rfl⟩⟩
  · obtain ⟨l, hl, hiff⟩ := c3_list_files_hierarchical azSample "cont/d" "cont" "d"
      (FS.mk [(["d"], Entry.dir), (["d", "f.txt"], Entry.file [1, 2] true)])
      (by decide) (by decide) (Or.inr (by decide))
    exact ⟨l, hl, (hiff _).2 ⟨["d", "f.txt"], [1, 2], true, by decide, by decide, by decide, rfl⟩⟩

/-- C9: for both backends, `upload_file` to an already-occupied
destination address succeeds (the ancestor directories, being consistent
with the occupied address, are created or found by the parent-creation
step) and afterwards the destination holds exactly the newly uploaded
bytes — no merge, no versioning. -/
theorem c9_overwrite_occupied (lfs remote r1 : FS) (local_path dest_path : String)
    (c c0 : Bytes) (rb : Bool)
    (st : AzStore) (cn ip lpA dpA : String) (fsC fsC1 : FS) (cA c0A : Bytes) (rbA : Bool)
    (hne : segs dest_path ≠ [])
    (hocc : remote.lookup (segs dest_path) = some (Entry.file c0 rb))
    (hmk : remote.makedirs (segs dest_path).dropLast = Except.ok r1)
    (hread : lfs.readFile (segs local_path) = some c)
    (hsplitA : splitContainerItem dpA = some (cn, ip))
    (hneA : segs ip ≠ [])
    (hfsA : st.lookupFS cn = some fsC)
    (hoccA : fsC.lookup (segs ip) = some (Entry.file c0A rbA))
    (hmkA : fsC.makedirs (segs ip).dropLast = Except.ok fsC1)
    (hreadA : lfs.readFile (segs lpA) = some cA) :
    (∃ r2, WindowsNetworkFolderClient.upload_file lfs remote local_path dest_path =
        (Except.ok (), r2) ∧ r2.lookup (segs dest_path) = some (Entry.file c true))
  ∧ (∃ st2, AzureDataLakeClient.upload_file lfs st lpA dpA = (Except.ok (), st2) ∧
        (st2.lookupFS cn).map (fun f => f.lookup (segs ip)) =
          some (some (Entry.file cA true))) := by
  have hlen : (segs dest_path).dropLast.length < (segs dest_path).length := by
    have : segs dest_path ≠ [] := hne
    rw [List.length_dropLast]
    cases hsd : segs dest_path with
    | nil => exact absurd hsd this
    | cons a t => simp
  have hpres : r1.lookup (segs dest_path) = remote.lookup (segs dest_path) :=
    FS.makedirs_lookup_of_longer hmk hlen
  have hwrite : r1.writeFile (segs dest_path) c =
      Except.ok (r1.insertEntry (segs dest_path) (Entry.file c true)) := by
    refine FS.writeFile_eq _ _ _ (FS.makedirs_isDir hmk) ?_
    rw [hpres, hocc]
    simp
  have hlenA : (segs ip).dropLast.length < (segs ip).length := by
    rw [List.length_dropLast]
    cases hsd : segs ip with
    | nil => exact absurd hsd hneA
    | cons a t => simp
  have hpresA : fsC1.lookup (segs ip) = fsC.lookup (segs ip) :=
    FS.makedirs_lookup_of_longer hmkA hlenA
  have hwriteA : fsC1.writeFile (segs ip) cA =
      Except.ok (fsC1.insertEntry (segs ip) (Entry.file cA true)) := by
    refine FS.writeFile_eq _ _ _ (FS.makedirs_isDir hmkA) ?_
    rw [hpresA, hoccA]
    simp
  constructor
  · refine ⟨r1.insertEntry (segs dest_path) (Entry.file c true), ?_,
      FS.lookup_insertEntry_self _ _ _⟩
    unfold WindowsNetworkFolderClient.upload_file
    rw [hmk]
    simp only [hread, hwrite]
  · refine ⟨st.setFS cn (fsC1.insertEntry (segs ip) (Entry.file cA true)), ?_, ?_⟩
    · unfold AzureDataLakeClient.upload_file
      simp only [hsplitA, hreadA, hfsA, hmkA, hwriteA]
    · rw [AzStore.lookupFS_setFS_self]
      simp only [Option.map_some']
      rw [FS.lookup_insertEntry_self]

/-- Witness for C9: overwriting the occupied `dir/x.txt` on the network
tree and the occupied `cont/d/f.txt` in the hierarchical store with the
byte `[9]`. -/
theorem c9_overwrite_occupied_witness :
    (∃ r2, WindowsNetworkFolderClient.upload_file (FS.mk [(["u.txt"], Entry.file [9] true)])
        wfsSample "u.txt" "dir/x.txt" = (Except.ok (), r2) ∧
        r2.lookup (segs "dir/x.txt") = some (Entry.file [9] true))
  ∧ (∃ st2, AzureDataLakeClient.upload_file (FS.mk [(["u.txt"], Entry.file [9] true)])
        azSample "u.txt" "cont/d/f.txt" = (Except.ok (), st2) ∧
        (st2.lookupFS "cont").map (fun f => f.lookup (segs "d/f.txt")) =
          some (some (Entry.file [9] true))) :=
  c9_overwrite_occupied (FS.mk [(["u.txt"], Entry.file [9] true)]) wfsSample wfsSample
    "u.txt" "dir/x.txt" [9] [7] true azSample "cont" "d/f.txt" "u.txt" "cont/d/f.txt"
    (FS.mk [(["d"], Entry.dir), (["d", "f.txt"], Entry.file [1, 2] true)])
    (FS.mk [(["d"], Entry.dir), (["d", "f.txt"], Entry.file [1, 2] true)])
    [9] [1, 2] true
    (by decide) (by decide) (by decide) (by decide) (by decide) (by decide)
    (by decide) (by decide) (by decide) (by decide)

/-- C8: round-trip — for a readable local file `L` and a valid destination
address `d` (one whose parent chain can be created and whose target is not
a directory, with a writable local target for the second leg),
`upload_file L d` followed by `download_file d L2` succeeds and leaves
`L2` holding exactly the uploaded bytes, for both the Network-Folder and
the Hierarchical-Store backend. -/
theorem c8_round_trip (lfs remote r1 lfs1 : FS) (L d L2 : String) (c : Bytes)
    (st : AzStore) (cn ip LA dA LA2 : String) (fsC fsC1 lfsA1 : FS) (cA : Bytes)
    (h1 : lfs.readFile (segs L) = some c)
    (h2 : remote.makedirs (segs d).dropLast = Except.ok r1)
    (h3 : segs d ≠ [])
    (h4 : remote.lookup (segs d) ≠ some Entry.dir)
    (h5 : lfs.makedirsStr (dirname L2) = Except.ok lfs1)
    (h6 : lfs1.isDirP (segs L2).dropLast = true)
    (h7 : lfs1.lookup (segs L2) ≠ some Entry.dir)
    (g1 : lfs.readFile (segs LA) = some cA)
    (g2 : splitContainerItem dA = some (cn, ip))
    (g3 : st.lookupFS cn = some fsC)
    (g4 : fsC.makedirs (segs ip).dropLast = Except.ok fsC1)
    (g5 : segs ip ≠ [])
    (g6 : fsC.lookup (segs ip) ≠ some Entry.dir)
    (g7 : lfs.makedirsStr (dirname LA2) = Except.ok lfsA1)
    (g8 : lfsA1.isDirP (segs LA2).dropLast = true)
    (g9 : lfsA1.lookup (segs LA2) ≠ some Entry.dir) :
    (∃ r2 lfs2, WindowsNetworkFolderClient.upload_file lfs remote L d = (Except.ok (), r2) ∧
      WindowsNetworkFolderClient.download_file r2 d L2 lfs = (Except.ok (), lfs2) ∧
      lfs2.readFile (segs L2) = some c)
  ∧ (∃ st2 lfs2, AzureDataLakeClient.upload_file lfs st LA dA = (Except.ok (), st2) ∧
      AzureDataLakeClient.download_file st2 dA LA2 lfs = (Except.ok (), lfs2) ∧
      lfs2.readFile (segs LA2) = some cA) := by
  have hlen : (segs d).dropLast.length < (segs d).length := by
    rw [List.length_dropLast]
    cases hsd : segs d with
    | nil => exact absurd hsd h3
    | cons a t => simp
  have hwrite : r1.writeFile (segs d) c =
      Except.ok (r1.insertEntry (segs d) (Entry.file c true)) := by
    refine FS.writeFile_eq _ _ _ (FS.makedirs_isDir h2) ?_
    rw [FS.makedirs_lookup_of_longer h2 hlen]
    exact h4
  have hwrite2 : lfs1.writeFile (segs L2) c =
      Except.ok (lfs1.insertEntry (segs L2) (Entry.file c true)) :=
    FS.writeFile_eq _ _ _ h6 h7
  have hlenA : (segs ip).dropLast.length < (segs ip).length := by
    rw [List.length_dropLast]
    cases hsd : segs ip with
    | nil => exact absurd hsd g5
    | cons a t => simp
  have hwriteA : fsC1.writeFile (segs ip) cA =
      Except.ok (fsC1.insertEntry (segs ip) (Entry.file cA true)) := by
    refine FS.writeFile_eq _ _ _ (FS.makedirs_isDir g4) ?_
    rw [FS.makedirs_lookup_of_longer g4 hlenA]
    exact g6
  have hwriteA2 : lfsA1.writeFile (segs LA2) cA =
      Except.ok (lfsA1.insertEntry (segs LA2) (Entry.file cA true)) :=
    FS.writeFile_eq _ _ _ g8 g9
  constructor
  · refine ⟨r1.insertEntry (segs d) (Entry.file c true),
      lfs1.insertEntry (segs L2) (Entry.file c true), ?_, ?_,
      FS.readFile_insertEntry_self _ _ _⟩
    · unfold WindowsNetworkFolderClient.upload_file
      rw [h2]
      simp only [h1, hwrite]
    · unfold WindowsNetworkFolderClient.download_file
      rw [if_pos (by unfold FS.existsP; rw [FS.lookup_insertEntry_self]; simp)]
      simp only [h5, FS.readFile_insertEntry_self, hwrite2]
  · refine ⟨st.setFS cn (fsC1.insertEntry (segs ip) (Entry.file cA true)),
      lfsA1.insertEntry (segs LA2) (Entry.file cA true), ?_, ?_,
      FS.readFile_insertEntry_self _ _ _⟩
    · unfold AzureDataLakeClient.upload_file
      simp only [g2, g1, g3, g4, hwriteA]
    · unfold AzureDataLakeClient.download_file
      simp only [g2, AzStore.lookupFS_setFS_self, Option.some_bind,
        FS.readFile_insertEntry_self, g7, hwriteA2]

/-- Witness for C8: uploading the byte `[5]` to fresh addresses `a/b` and
`cont/new.txt` and downloading each back into a writable local
directory. -/
theorem c8_round_trip_witness :
    (∃ r2 lfs2, WindowsNetworkFolderClient.upload_file
        (FS.mk [(["L.txt"], Entry.file [5] true), (["o"], Entry.dir)]) (FS.mk [])
        "L.txt" "a/b" = (Except.ok (), r2) ∧
      WindowsNetworkFolderClient.download_file r2 "a/b" "o/L2.txt"
        (FS.mk [(["L.txt"], Entry.file [5] true), (["o"], Entry.dir)]) =
          (Except.ok (), lfs2) ∧
      lfs2.readFile (segs "o/L2.txt") = some [5])
  ∧ (∃ st2 lfs2, AzureDataLakeClient.upload_file
        (FS.mk [(["L.txt"], Entry.file [5] true), (["o"], Entry.dir)]) azSample
        "L.txt" "cont/new.txt" = (Except.ok (), st2) ∧
      AzureDataLakeClient.download_file st2 "cont/new.txt" "o/L3.txt"
        (FS.mk [(["L.txt"], Entry.file [5] true), (["o"], Entry.dir)]) =
          (Except.ok (), lfs2) ∧
      lfs2.readFile (segs "o/L3.txt") = some [5]) :=
  c8_round_trip (FS.mk [(["L.txt"], Entry.file [5] true), (["o"], Entry.dir)]) (FS.mk [])
    (FS.mk [(["a"], Entry.dir)])
    (FS.mk [(["L.txt"], Entry.file [5] true), (["o"], Entry.dir)])
    "L.txt" "a/b" "o/L2.txt" [5] azSample "cont" "new.txt" "L.txt" "cont/new.txt" "o/L3.txt"
    (FS.mk [(["d"], Entry.dir), (["d", "f.txt"], Entry.file [1, 2] true)])
    (FS.mk [(["d"], Entry.dir), (["d", "f.txt"], Entry.file [1, 2] true)])
    (FS.mk [(["L.txt"], Entry.file [5] true), (["o"], Entry.dir)]) [5]
    (by decide) (by decide) (by decide) (by decide) (by decide) (by decide) (by decide)
    (by decide) (by decide) (by decide) (by decide) (by decide) (by decide) (by decide)
    (by decide) (by decide)

/-- C6: `transfer_file` stages through a scoped temporary directory that
is removed on every exit path (no path below it survives the call); the
download fully precedes the upload — if the download fails, the upload
does not run (the destination backend is returned untouched) and the
download's error propagates unchanged; if the upload fails after a
successful download, its error propagates unchanged (and the staging tree
is still cleaned up, by the first conjunct); no retry happens — the result
is exactly the first error. -/
theorem transfer_file_eq_of_download_error {σs σd : Type} (S : Backend σs) (D : Backend σd)
    (sp dp : String) (n : Nat) (w : World σs σd) (e : Err) (lfs2 : FS)
    (hD : S.download w.src sp (tmpDirName n ++ "/" ++ basename sp)
      (w.lfs.insertEntry [tmpDirName n] Entry.dir) = (Except.error e, lfs2)) :
    transfer_file S D sp dp n w =
      (Except.error e, ⟨w.src, w.dst, lfs2.removeTree [tmpDirName n]⟩) := by
  unfold transfer_file
  rw [hD]

theorem transfer_file_eq_of_upload_error {σs σd : Type} (S : Backend σs) (D : Backend σd)
    (sp dp : String) (n : Nat) (w : World σs σd) (e : Err) (lfs2 : FS) (dst2 : σd)
    (hD : S.download w.src sp (tmpDirName n ++ "/" ++ basename sp)
      (w.lfs.insertEntry [tmpDirName n] Entry.dir) = (Except.ok (), lfs2))
    (hU : D.upload lfs2 w.dst (tmpDirName n ++ "/" ++ basename sp) dp =
      (Except.error e, dst2)) :
    transfer_file S D sp dp n w =
      (Except.error e, ⟨w.src, dst2, lfs2.removeTree [tmpDirName n]⟩) := by
  unfold transfer_file
  rw [hD]
  simp only [hU]

theorem transfer_file_eq_of_ok {σs σd : Type} (S : Backend σs) (D : Backend σd)
    (sp dp : String) (n : Nat) (w : World σs σd) (lfs2 : FS) (dst2 : σd)
    (hD : S.download w.src sp (tmpDirName n ++ "/" ++ basename sp)
      (w.lfs.insertEntry [tmpDirName n] Entry.dir) = (Except.ok (), lfs2))
    (hU : D.upload lfs2 w.dst (tmpDirName n ++ "/" ++ basename sp) dp =
      (Except.ok (), dst2)) :
    transfer_file S D sp dp n w =
      (Except.ok (), ⟨w.src, dst2, lfs2.removeTree [tmpDirName n]⟩) := by
  unfold transfer_file
  rw [hD]
  simp only [hU]

theorem c6_transfer_file_staging {σs σd : Type} (S : Backend σs) (D : Backend σd)
    (sp dp : String) (n : Nat) (w : World σs σd) :
    (∀ q, [tmpDirName n] <+: q →
      (transfer_file S D sp dp n w).2.lfs.lookup q = none)
  ∧ (∀ e lfs2,
      S.download w.src sp (tmpDirName n ++ "/" ++ basename sp)
        (w.lfs.insertEntry [tmpDirName n] Entry.dir) = (Except.error e, lfs2) →
      (transfer_file S D sp dp n w).1 = Except.error e ∧
      (transfer_file S D sp dp n w).2.dst = w.dst)
  ∧ (∀ lfs2 e dst2,
      S.download w.src sp (tmpDirName n ++ "/" ++ basename sp)
        (w.lfs.insertEntry [tmpDirName n] Entry.dir) = (Except.ok (), lfs2) →
      D.upload lfs2 w.dst (tmpDirName n ++ "/" ++ basename sp) dp =
        (Except.error e, dst2) →
      (transfer_file S D sp dp n w).1 = Except.error e ∧
      (transfer_file S D sp dp n w).2.dst = dst2) := by
  refine ⟨?_, ?_, ?_⟩
  · intro q hq
    rcases hD : S.download w.src sp (tmpDirName n ++ "/" ++ basename sp)
        (w.lfs.insertEntry [tmpDirName n] Entry.dir) with ⟨rd, lfsd⟩
    cases rd with
    | error e0 =>
      rw [transfer_file_eq_of_download_error S D sp dp n w e0 lfsd hD]
      exact FS.lookup_removeTree _ hq
    | ok u =>
      cases u
      rcases hU : D.upload lfsd w.dst (tmpDirName n ++ "/" ++ basename sp) dp with ⟨ru, dstu⟩
      cases ru with
      | error e0 =>
        rw [transfer_file_eq_of_upload_error S D sp dp n w e0 lfsd dstu hD hU]
        exact FS.lookup_removeTree _ hq
      | ok u2 =>
        cases u2
        rw [transfer_file_eq_of_ok S D sp dp n w lfsd dstu hD hU]
        exact FS.lookup_removeTree _ hq
  · intro e lfs2 h
    rw [transfer_file_eq_of_download_error S D sp dp n w e lfs2 h]
    exact ⟨rfl, rfl⟩
  · intro lfs2 e dst2 h hu
    rw [transfer_file_eq_of_upload_error S D sp dp n w e lfs2 dst2 h hu]
    exact ⟨rfl, rfl⟩

/-- World of the C6 witness's failing-download scenario: both backends are
empty network trees. -/
def wc6a : World FS FS := ⟨FS.mk [], FS.mk [], FS.mk []⟩

/-- World of the C6 witness's failing-upload scenario: the source holds
`dir/x.txt`, the destination root holds a file named `c`, so creating the
parent directory `c` of `c/y.txt` fails. -/
def wc6b : World FS FS := ⟨wfsSample, FS.mk [(["c"], Entry.file [0] true)], FS.mk []⟩

/-- Witness for C6: a failing download propagates `NotFound` and leaves
the destination untouched, the staging path is gone afterwards, and a
failing upload after a successful download propagates its error with the
destination state the upload returned. -/
theorem c6_transfer_file_staging_witness :
    ((transfer_file wnfBackend wnfBackend "a/b.txt" "c/b.txt" 0 wc6a).1 =
        Except.error Err.notFound ∧
      (transfer_file wnfBackend wnfBackend "a/b.txt" "c/b.txt" 0 wc6a).2.dst = wc6a.dst)
  ∧ (transfer_file wnfBackend wnfBackend "a/b.txt" "c/b.txt" 0 wc6a).2.lfs.lookup
      ["tmp0", "b.txt"] = none
  ∧ ((transfer_file wnfBackend wnfBackend "dir/x.txt" "c/y.txt" 0 wc6b).1 =
        Except.error Err.localIOError ∧
      (transfer_file wnfBackend wnfBackend "dir/x.txt" "c/y.txt" 0 wc6b).2.dst =
        wc6b.dst) := by
  refine ⟨?_, ?_, ?_⟩
  · exact (c6_transfer_file_staging wnfBackend wnfBackend "a/b.txt" "c/b.txt" 0 wc6a).2.1
      Err.notFound (FS.mk [(["tmp0"], Entry.dir)]) (by decide)
  · exact (c6_transfer_file_staging wnfBackend wnfBackend "a/b.txt" "c/b.txt" 0 wc6a).1
      ["tmp0", "b.txt"] (by decide)
  · exact (c6_transfer_file_staging wnfBackend wnfBackend "dir/x.txt" "c/y.txt" 0 wc6b).2.2
      (FS.mk [(["tmp0", "x.txt"], Entry.file [7] true), (["tmp0"], Entry.dir)])
      Err.localIOError wc6b.dst (by decide) (by decide)

/-- The files `done` are transferred one after another, each successfully,
starting from world `w` with staging counter `n` and ending in world
`w'`. -/
def seqOk {σs σd : Type} (S : Backend σs) (D : Backend σd) (sd dd : String) :
    List String → Nat → World σs σd → World σs σd → Prop
  | [], _, w, w' => w' = w
  | f :: fs, n, w, w' =>
    ∃ wm, transfer_file S D (joinedPath sd f) (joinedPath dd f) n w = (Except.ok (), wm) ∧
      seqOk S D sd dd fs (n + 1) wm w'

theorem transferLoop_abort {σs σd : Type} (S : Backend σs) (D : Backend σd) (sd dd : String) :
    ∀ (done : List String) (bad : String) (rest : List String) (n : Nat)
      (w w1 w2 : World σs σd) (e : Err),
      seqOk S D sd dd done n w w1 →
      transfer_file S D (joinedPath sd bad) (joinedPath dd bad) (n + done.length) w1 =
        (Except.error e, w2) →
      transferLoop S D sd dd (done ++ bad :: rest) n w = (Except.error e, w2) := by
  intro done
  induction done with
  | nil =>
    intro bad rest n w w1 w2 e hs hb
    unfold seqOk at hs
    subst hs
    simp only [List.length_nil, Nat.add_zero] at hb
    simp only [List.nil_append, transferLoop]
    rw [hb]
  | cons f fs ih =>
    intro bad rest n w w1 w2 e hs hb
    unfold seqOk at hs
    obtain ⟨wm, hf, hrest⟩ := hs
    simp only [List.cons_append, transferLoop]
    rw [hf]
    have harith : n + (f :: fs).length = (n + 1) + fs.length := by
      simp only [List.length_cons]
      omega
    rw [harith] at hb
    exact ih bad rest (n + 1) wm w1 w2 e hrest hb

/-- C7: batch transfer is fail-fast and strictly sequential — when the
listing succeeds and its files decompose as `done ++ bad :: rest` where
every file of `done` transfers successfully in order and `bad` then fails
with error `e`, `transfer_files` returns exactly that error and the state
reached at the failure: the files of `rest` are never attempted and no
partial-success result is produced. -/
theorem c7_fail_fast {σs σd : Type} (S : Backend σs) (D : Backend σd) (sd dd : String)
    (done : List String) (bad : String) (rest : List String) (n : Nat)
    (w w1 w2 : World σs σd) (e : Err)
    (hlist : S.listF w.src sd = Except.ok (done ++ bad :: rest))
    (hdone : seqOk S D sd dd done n w w1)
    (hbad : transfer_file S D (joinedPath sd bad) (joinedPath dd bad) (n + done.length) w1 =
      (Except.error e, w2)) :
    transfer_files S D sd dd n w = (Except.error e, w2) := by
  unfold transfer_files
  rw [hlist]
  exact transferLoop_abort S D sd dd done bad rest n w w1 w2 e hdone hbad

/-- A miniature backend over a counter state, used by the C7 witness:
listing yields `a` and `b`, downloading `dir/a` succeeds, downloading
`dir/b` fails, and every upload bumps the counter. -/
def ctrBackend : Backend Nat :=
  { listF := fun _ _ => Except.ok ["a", "b"]
    download := fun _ sp _ lfs =>
      if sp = "dir/a" then (Except.ok (), lfs) else (Except.error Err.notFound, lfs)
    upload := fun _ st _ _ => (Except.ok (), st + 1) }

/-- Witness for C7: with the counter backend, `a` transfers successfully,
`b` fails with `NotFound`, and the batch returns that error with the state
reached after one successful transfer. -/
theorem c7_fail_fast_witness :
    transfer_files ctrBackend ctrBackend "dir" "out" 0
      (⟨0, 0, FS.mk []⟩ : World Nat Nat) =
      (Except.error Err.notFound, (⟨0, 1, FS.mk []⟩ : World Nat Nat)) :=
  c7_fail_fast ctrBackend ctrBackend "dir" "out" ["a"] "b" [] 0
    ⟨0, 0, FS.mk []⟩ ⟨0, 1, FS.mk []⟩ ⟨0, 1, FS.mk []⟩ Err.notFound
    (by decide) ⟨⟨0, 1, FS.mk []⟩, by decide, rfl⟩ (by decide)

/-- Source tree of the batch-transfer scenario of C1: `dir/x.txt` and
`dir/y.txt` below the backend root. -/
def batchSrc : FS :=
  ⟨[(["dir"], Entry.dir), (["dir", "x.txt"], Entry.file [10] true),
    (["dir", "y.txt"], Entry.file [11] true)]⟩

/-- Initial world of the C1 scenario: network source `batchSrc`, empty
network destination root, empty local filesystem. -/
def batchW : World FS FS := ⟨batchSrc, FS.mk [], FS.mk []⟩

/-- C1: the claimed end-to-end batch behaviour fails on the code. The
network-folder listing returns base-root-relative paths (`dir/x.txt`,
`dir/y.txt`); `transfer_files` then prepends `source_dir` again and asks
the source backend for `dir/dir/x.txt`, which does not exist, so the very
first transfer raises `NotFound` and nothing is ever written to the
destination — neither `out/x.txt` nor `out/y.txt` exists afterwards. -/
theorem c1_batch_double_join :
    WindowsNetworkFolderClient.list_files batchSrc "dir" =
      Except.ok ["dir/x.txt", "dir/y.txt"]
  ∧ joinedPath "dir" "dir/x.txt" = "dir/dir/x.txt"
  ∧ batchSrc.existsP (segs "dir/dir/x.txt") = false
  ∧ transfer_files wnfBackend wnfBackend "dir" "out" 0 batchW =
      (Except.error Err.notFound, ⟨batchSrc, FS.mk [], FS.mk []⟩) :=
  ⟨by decide, by decide, by decide, by decide⟩

end FileTransferLib
